import Mathlib

/- Verification of the transcription service's speech-analysis core.

   Shallow embedding of:
   - src/constants/speech.ts : FILLER_WORDS, normalizeToken, isFillerWord,
     PAUSE_THRESHOLD, PACE_SEGMENT_INTERVAL, CONTEXT_WORDS_COUNT
   - src/services/TranscriptionSession.ts : handleTranscript, generateSummary,
     completeSession, calculatePaceTimeline, detectFillers, detectPauses, cleanup
   - src/handlers/websocket.ts (authenticated variant) : start / complete actions

   Times and confidences are modelled as rationals (the source works with JS
   numbers written in decimal); JS `Math.round` and `toFixed(2)` are modelled
   exactly by their spec on rationals (round half toward positive infinity). -/

namespace Transcription

/-- JS `Math.round`: round to nearest integer, half toward positive infinity. -/
def jsRound (q : ℚ) : ℤ := ⌊q + 1/2⌋

/-- JS `parseFloat(x.toFixed(2))`: round to the nearest hundredth,
half toward positive infinity. -/
def round2 (q : ℚ) : ℚ := (⌊q * 100 + 1/2⌋ : ℚ) / 100

/-- Deepgram word with timing, from `src/types` (`TranscriptWord`). -/
structure TranscriptWord where
  word : String
  start : ℚ
  «end» : ℚ
  confidence : ℚ
deriving DecidableEq, Repr

/-- A pause between consecutive words, from `src/types` (`Pause`). -/
structure Pause where
  duration : ℚ
  timestamp : ℚ
deriving DecidableEq, Repr

/-- One pace-timeline window entry, from `src/types` (`PaceTimelinePoint`).
`wpm` is an integer in the source (`Math.round` is applied). -/
structure PaceTimelinePoint where
  timestamp : ℚ
  wpm : ℤ
  segmentStart : ℚ
  segmentEnd : ℚ
deriving DecidableEq, Repr

/-- A detected filler word with surrounding context, from `src/types`
(`FillerWithContext`). -/
structure FillerWithContext where
  word : String
  timestamp : ℚ
  contextBefore : String
  contextAfter : String
deriving DecidableEq, Repr

/-- A finalized utterance, from `src/types` (`TranscriptSegment`). -/
structure TranscriptSegment where
  text : String
  startTime : ℚ
  endTime : ℚ
  words : List TranscriptWord
deriving DecidableEq, Repr

/-- The full payload handed to the backend, from `src/types` (`SessionSummary`). -/
structure SessionSummary where
  transcript : String
  duration : ℚ
  totalWords : ℕ
  words : List TranscriptWord
  paceTimeline : List PaceTimelinePoint
  averagePace : ℤ
  fillers : List FillerWithContext
  pauses : List Pause
  transcriptSegments : List TranscriptSegment
deriving DecidableEq, Repr

/-- `PAUSE_THRESHOLD = 1.2` seconds, from `src/constants/speech.ts`. -/
def PAUSE_THRESHOLD : ℚ := 12/10

/-- `PACE_SEGMENT_INTERVAL = 30` seconds, from `src/constants/speech.ts`. -/
def PACE_SEGMENT_INTERVAL : ℚ := 30

/-- `CONTEXT_WORDS_COUNT = 5`, from `src/constants/speech.ts`. -/
def CONTEXT_WORDS_COUNT : ℕ := 5

/-- The static disfluency phrase list `FILLER_WORDS` from
`src/constants/speech.ts`, in source order, duplicates included. -/
def FILLER_WORDS : List String :=
  [ "um", "uh", "erm", "er", "ah", "oh", "mm", "mhmm", "mhm", "uh-huh",
    "uhuh", "uh-uh", "huh", "eh",
    "umm", "ummm", "uhh", "uhhh", "ermm", "ahh", "ohh", "mmm",
    "like", "so", "well", "anyway", "anyhow", "anywho", "alright", "okay",
    "ok", "right", "righto", "alrighty",
    "you know", "y\x27know", "you know what I mean", "you see", "you get me",
    "if you know what I mean", "you know what I\x27m saying",
    "kind of", "kinda", "sort of", "sorta", "ish", "maybe", "perhaps",
    "I guess", "I suppose", "I reckon", "I think", "I feel", "I feel like",
    "I mean", "I dunno", "dunno", "I suppose", "I believe", "I assume",
    "actually", "basically", "literally", "seriously", "honestly", "frankly",
    "really", "definitely", "truly", "genuinely",
    "right?", "okay?", "you know?", "see?", "you see?", "okay so", "so yeah",
    "so anyway", "so then", "and then", "and so",
    "for what it\x27s worth", "to be honest", "to be fair", "if I\x27m honest",
    "not gonna lie", "no cap", "let\x27s be real",
    "at the end of the day", "in the end", "that being said",
    "having said that", "all that being said", "for the most part",
    "as I said", "like I said", "as I mentioned", "if that makes sense",
    "if that makes any sense", "if that helps", "you know what I mean?",
    "and stuff", "and things", "and all that", "and all that jazz",
    "and all that stuff", "and so forth", "and so on", "and whatnot",
    "or something", "or whatever", "or something like that", "or so",
    "or the like",
    "look", "listen", "okay look", "well look", "now", "now listen",
    "right now", "anyways",
    "yeah", "yep", "yup", "mm-hmm", "uh-huh", "nope", "nah", "mmm", "ah-ha",
    "aha", "wow", "oh wow",
    "gonna", "wanna", "gotta", "lemme", "lemme see", "lemme think",
    "kinda like", "sort of like",
    "so yeah no", "so yeah but", "so anyway yeah", "anyway yeah", "anyway so",
    "moving on", "back to", "to be clear", "to be honest with you",
    "to tell the truth", "believe me", "honestly though",
    "innit", "yeah yeah", "yer", "ya know", "y\x27all", "mate",
    "well then", "well yeah", "like I said before", "as I was saying",
    "that sort of thing", "that kind of thing", "if you will", "if you like",
    "so to speak", "I mean like", "I mean you know",
    "um...", "uh...", "erm...", "ah...", "oh...", "mmm...", "mm-hmm",
    "uh-huh", "uh-uh", "hmm" ]

/-- JS `String.prototype.toLowerCase` restricted to ASCII (the only characters
occurring in the service): map upper-case letters to lower-case. -/
def toLowerChar (c : Char) : Char :=
  if decide (Char.ofNat 65 ≤ c) && decide (c ≤ Char.ofNat 90) then
    Char.ofNat (c.toNat + 32)
  else c

/-- Lower-case a whole string, character by character. -/
def lowerString (s : String) : String := String.mk (s.data.map toLowerChar)

/-- `FILLER_SET = new Set(FILLER_WORDS.map(w => w.toLowerCase()))`, modelled
as the lower-cased list; `Set.has` becomes `List.contains`. -/
def FILLER_SET : List String := FILLER_WORDS.map lowerString

/-- The apostrophe character (kept by the normalization regex). -/
def apos : Char := Char.ofNat 39

/-- JS `\s` whitespace (restricted to the ASCII whitespace the service sees). -/
def isWsChar (c : Char) : Bool :=
  c = ' ' || c = Char.ofNat 9 || c = Char.ofNat 10 || c = Char.ofNat 13

/-- Characters kept by the regex `[^a-z0-9\s']` replacement (applied after
lower-casing): lower-case letters, digits, whitespace and apostrophes. -/
def keepChar (c : Char) : Bool :=
  (decide (Char.ofNat 97 ≤ c) && decide (c ≤ Char.ofNat 122)) ||
  (decide (Char.ofNat 48 ≤ c) && decide (c ≤ Char.ofNat 57)) ||
  isWsChar c || c = apos

/-- The regex `(.)\1+` → `$1`: collapse every run of a repeated character
to a single occurrence. -/
def collapseRuns : List Char → List Char
  | [] => []
  | [c] => [c]
  | a :: b :: rest =>
    if a = b then collapseRuns (b :: rest) else a :: collapseRuns (b :: rest)

/-- The regex `\s+` → `' '`: replace every maximal whitespace run by a single
space. The Boolean argument records whether the previous character was
whitespace. -/
def collapseWsAux : List Char → Bool → List Char
  | [], _ => []
  | c :: rest, prevWs =>
    if isWsChar c then
      if prevWs then collapseWsAux rest true else ' ' :: collapseWsAux rest true
    else c :: collapseWsAux rest false

/-- JS `String.prototype.trim` restricted to the spaces that survive
`\s+ → ' '`: drop leading and trailing spaces. -/
def trimSpaces (l : List Char) : List Char :=
  ((l.dropWhile fun c => c = ' ').reverse.dropWhile fun c => c = ' ').reverse

/-- `normalizeToken` from `src/constants/speech.ts`: lower-case, strip
punctuation except apostrophes, collapse repeated characters, collapse
whitespace, trim. -/
def normalizeToken (token : String) : String :=
  String.mk
    (trimSpaces
      (collapseWsAux (collapseRuns ((token.data.map toLowerChar).filter keepChar)) false))

/-- JS `String.prototype.split(' ')`: split a character list at each single
space. An empty input yields one empty part, like JS. -/
def splitOnSpace : List Char → List (List Char)
  | [] => [[]]
  | c :: rest =>
    match splitOnSpace rest with
    | [] => [[]]
    | p :: ps => if c = ' ' then [] :: p :: ps else (c :: p) :: ps

/-- JS `Array.prototype.join(' ')` over character-list tokens. -/
def joinWithSpace : List (List Char) → List Char
  | [] => []
  | [p] => p
  | p :: q :: rest => p ++ ' ' :: joinWithSpace (q :: rest)

/-- `isFillerWord` from `src/constants/speech.ts`: the normalized token is in
the set, or some contiguous chunk `parts.slice(i, j).join(' ')` of its
space-separated parts is. The double loop `i < parts.length`,
`i + 1 ≤ j ≤ parts.length` is translated with `j = i + 1 + d`. -/
def isFillerWord (token : String) : Bool :=
  let clean := normalizeToken token
  if FILLER_SET.contains clean then true
  else
    let parts := splitOnSpace clean.data
    (List.range parts.length).any fun i =>
      (List.range (parts.length - i)).any fun d =>
        FILLER_SET.contains (String.mk (joinWithSpace ((parts.drop i).take (d + 1))))

/-! Section: Speech analyzer: pace timeline, fillers, pauses
(`TranscriptionSession.calculatePaceTimeline`, `detectFillers`,
`detectPauses`). -/

/-- The words selected for window `k` of the pace timeline:
`allWords.filter(w => w.start >= segStart && w.end <= segEnd)` with
`segStart = startTime + 30 * k`, `segEnd = segStart + 30`. -/
def windowWords (startTime : ℚ) (allWords : List TranscriptWord) (k : ℕ) :
    List TranscriptWord :=
  let segStart := startTime + PACE_SEGMENT_INTERVAL * k
  let segEnd := segStart + PACE_SEGMENT_INTERVAL
  allWords.filter fun w => decide (segStart ≤ w.start) && decide (w.«end» ≤ segEnd)

/-- The raw words-per-minute value the loop body computes for a non-empty
window: `segWords.length / (last.end - first.start) * 60`, and `0` when that
span is not positive. -/
def paceWpmValue : List TranscriptWord → ℚ
  | [] => 0
  | w0 :: rest =>
    let segDuration := ((w0 :: rest).getLast (List.cons_ne_nil w0 rest)).«end» - w0.start
    if 0 < segDuration then (((w0 :: rest).length : ℚ) / segDuration) * 60 else 0

/-- One iteration of the `calculatePaceTimeline` loop: `none` when the window
holds no qualifying word (nothing is pushed), otherwise the pushed entry. -/
def windowEntry (startTime : ℚ) (allWords : List TranscriptWord) (k : ℕ) :
    Option PaceTimelinePoint :=
  let segStart := startTime + PACE_SEGMENT_INTERVAL * k
  let segEnd := segStart + PACE_SEGMENT_INTERVAL
  match windowWords startTime allWords k with
  | [] => none
  | w0 :: rest =>
    some { timestamp := segStart, wpm := jsRound (paceWpmValue (w0 :: rest)),
           segmentStart := segStart, segmentEnd := segEnd }

/-- Number of iterations of `for (t = 0; t < duration; t += 30)`: the
iterations are `t = 30 k` for every natural `k` with `30 k < duration`. -/
def numWindows (startTime endTime : ℚ) : ℕ :=
  (⌈(endTime - startTime) / PACE_SEGMENT_INTERVAL⌉).toNat

/-- `calculatePaceTimeline` from `TranscriptionSession`: the for-loop over
window starts `t = 0, 30, 60, …` (`t < duration`) is translated into the
indexed iteration over `k < numWindows`. -/
def calculatePaceTimeline (startTime endTime : ℚ)
    (allWords : List TranscriptWord) : List PaceTimelinePoint :=
  (List.range (numWindows startTime endTime)).filterMap (windowEntry startTime allWords)

/-- The `FillerWithContext` record pushed for the filler at index `i`:
up to `CONTEXT_WORDS_COUNT` raw words of context on each side
(`slice(max(0, i-5), i)` and `slice(i+1, min(len-1, i+5)+1)`). -/
def mkFillerEvent (allWords : List TranscriptWord) (i : ℕ)
    (w : TranscriptWord) : FillerWithContext :=
  let start := i - CONTEXT_WORDS_COUNT
  let stop := min (allWords.length - 1) (i + CONTEXT_WORDS_COUNT)
  { word := w.word, timestamp := w.start,
    contextBefore :=
      String.intercalate " " (((allWords.drop start).take (i - start)).map TranscriptWord.word),
    contextAfter :=
      String.intercalate " " (((allWords.drop (i + 1)).take (stop + 1 - (i + 1))).map TranscriptWord.word) }

/-- `detectFillers` from `TranscriptionSession`: map every accumulated word,
keeping an event exactly when `isFillerWord(word.word)`; the `map` + `filter
(≠ null)` of the source is `filterMap` over the enumerated list. -/
def detectFillers (allWords : List TranscriptWord) : List FillerWithContext :=
  allWords.enum.filterMap fun iw =>
    if isFillerWord iw.2.word then some (mkFillerEvent allWords iw.1 iw.2) else none

/-- `detectPauses` from `TranscriptionSession`: walk consecutive word pairs;
push a `Pause` when `words[i].start - words[i-1].end > PAUSE_THRESHOLD`,
with both fields rounded by `toFixed(2)`. -/
def detectPauses : List TranscriptWord → List Pause
  | [] => []
  | [_] => []
  | a :: b :: rest =>
    let gap := b.start - a.«end»
    (if PAUSE_THRESHOLD < gap then
       [{ duration := round2 gap, timestamp := round2 a.«end» }]
     else []) ++ detectPauses (b :: rest)

/-! Section: Session state and transitions (`TranscriptionSession`,
`handlers/websocket.ts`). -/

/-- Outbound messages sent to the client (`ServerMessage` in `src/types`),
restricted to the constructors the verified paths emit. -/
inductive ServerMessage
  | transcriptMsg (text : String) (isFinal : Bool) (words : List TranscriptWord)
  | errorMsg (message : String)
  | sessionComplete (message : String) (interviewId : String)
  | startedMsg
  | stoppedMsg
deriving DecidableEq, Repr

/-- The mutable state of a `TranscriptionSession`: the LiveKit room and the
Deepgram connection are modelled by whether they are live (`room !== null`,
`dgConnection !== null`). -/
structure SessionState where
  sessionActive : Bool
  room : Bool
  dgConnection : Bool
  allWords : List TranscriptWord
  segments : List TranscriptSegment
  startTime : Option ℚ
  endTime : Option ℚ
deriving DecidableEq, Repr

/-- The session right after a successful `start()`: connected, active,
nothing accumulated yet. -/
def startedSession : SessionState :=
  { sessionActive := true, room := true, dgConnection := true,
    allWords := [], segments := [], startTime := none, endTime := none }

/-- A recognition event as consumed by `handleTranscript`: the first
alternative's transcript text, the `is_final` flag and the word list. -/
structure TranscriptEvent where
  transcript : String
  is_final : Bool
  words : List TranscriptWord
deriving DecidableEq, Repr

/-- `handleTranscript` from `TranscriptionSession`: an empty transcript text
returns early (`!transcript?.transcript`); every other event is forwarded
live; only final events with at least one word accumulate. -/
def handleTranscript (s : SessionState) (e : TranscriptEvent) :
    SessionState × List ServerMessage :=
  if e.transcript = "" then (s, [])
  else
    let msgs := [ServerMessage.transcriptMsg e.transcript e.is_final e.words]
    match e.is_final, e.words with
    | true, w0 :: rest =>
      let lastW := (w0 :: rest).getLast (List.cons_ne_nil w0 rest)
      ({ s with
         startTime := match s.startTime with
           | none => some w0.start
           | some t => some t,
         allWords := s.allWords ++ (w0 :: rest),
         segments := s.segments ++
           [{ text := e.transcript, startTime := w0.start,
              endTime := lastW.«end», words := w0 :: rest }],
         endTime := some lastW.«end» }, msgs)
    | _, _ => (s, msgs)

/-- Deliver a list of recognition events to the session in order, keeping the
resulting state. -/
def runEvents (s : SessionState) (events : List TranscriptEvent) : SessionState :=
  events.foldl (fun st e => (handleTranscript st e).1) s

/-- `generateSummary` from `TranscriptionSession`. The source reads
`this.endTime!` and `this.startTime!`; the non-null assertions are modelled
by returning `none` when either timestamp is missing. -/
def generateSummary (s : SessionState) : Option SessionSummary :=
  match s.startTime, s.endTime with
  | some st, some et =>
    let duration := et - st
    let averagePace :=
      if 0 < duration then ((s.allWords.length : ℚ) / duration) * 60 else 0
    some { transcript := String.intercalate " " (s.segments.map TranscriptSegment.text),
           duration := round2 duration,
           totalWords := s.allWords.length,
           words := s.allWords,
           paceTimeline := calculatePaceTimeline st et s.allWords,
           averagePace := jsRound averagePace,
           fillers := detectFillers s.allWords,
           pauses := detectPauses s.allWords,
           transcriptSegments := s.segments }
  | _, _ => none

/-- `completeSession` from `TranscriptionSession`. With no accumulated words
it sends one error and returns, touching nothing. Otherwise it generates the
summary and posts it; `backendResponse` is the backend's answer (`none` for
a failed request, which the `catch` turns into an error message). -/
def completeSession (s : SessionState) (backendResponse : Option String) :
    SessionState × List ServerMessage :=
  if s.allWords = [] then
    (s, [ServerMessage.errorMsg "No session data to complete"])
  else
    match generateSummary s with
    | none => (s, [ServerMessage.errorMsg "Failed to complete session"])
    | some _ =>
      match backendResponse with
      | some interviewId =>
        (s, [ServerMessage.sessionComplete
              "Session completed. Analysis in progress..." interviewId])
      | none => (s, [ServerMessage.errorMsg "Failed to complete session"])

/-- The resource-release side effects `cleanup` can perform. -/
inductive CleanupEffect
  | closeDeepgram
  | disconnectRoom
deriving DecidableEq, Repr

/-- `cleanup` from `TranscriptionSession`: clear `sessionActive`, close and
null out the Deepgram connection if present, disconnect and null out the
LiveKit room if present. -/
def cleanup (s : SessionState) : SessionState × List CleanupEffect :=
  let s1 : SessionState := { s with sessionActive := false }
  let r1 : SessionState × List CleanupEffect :=
    if s1.dgConnection then
      ({ s1 with dgConnection := false }, [CleanupEffect.closeDeepgram])
    else (s1, [])
  let r2 : SessionState × List CleanupEffect :=
    if r1.1.room then
      ({ r1.1 with room := false }, [CleanupEffect.disconnectRoom])
    else (r1.1, [])
  (r2.1, r1.2 ++ r2.2)

/-- The websocket handler's `complete` branch with a live session:
`await session.completeSession(); await session.cleanup()`. Returns the final
state, the messages sent and the cleanup effects performed. -/
def handleCompleteAction (s : SessionState) (backendResponse : Option String) :
    SessionState × List ServerMessage × List CleanupEffect :=
  let r1 := completeSession s backendResponse
  let r2 := cleanup r1.1
  (r2.1, r1.2, r2.2)

/-- The JWT claims attached to an authenticated websocket
(`AuthenticatedWebSocket`). -/
structure WsClaims where
  roomName : String
  participantIdentity : String
deriving DecidableEq, Repr

/-- A client `start` control message; a missing field is the empty string
(JS falsy). -/
structure StartMessage where
  roomName : String
  participantIdentity : String
deriving DecidableEq, Repr

/-- Outcome of the handler's `start` branch: which error (if any) was sent,
whether the connection was closed, and whether a `TranscriptionSession` was
constructed. -/
structure StartResult where
  errorSent : Option String
  closed : Bool
  sessionCreated : Bool
deriving DecidableEq, Repr

/-- The authenticated websocket handler's `start` branch: compare the declared
`roomName` and `participantIdentity` with the JWT claims, close with an
authorization error on mismatch, reject missing fields, and only then create
the `TranscriptionSession`. -/
def handleStartMessage (ws : WsClaims) (m : StartMessage) : StartResult :=
  if m.roomName ≠ ws.roomName then
    { errorSent := some "Unauthorized: roomName does not match token",
      closed := true, sessionCreated := false }
  else if m.participantIdentity ≠ ws.participantIdentity then
    { errorSent := some "Unauthorized: participantIdentity does not match token",
      closed := true, sessionCreated := false }
  else if m.roomName = "" ∨ m.participantIdentity = "" then
    { errorSent := some "Missing roomName or participantIdentity",
      closed := false, sessionCreated := false }
  else
    { errorSent := none, closed := false, sessionCreated := true }

/-- An event accumulates into the session state exactly when it passes all
the guards of `handleTranscript`: nonempty transcript text, final flag, and
at least one word. -/
def accumulates (e : TranscriptEvent) : Bool :=
  decide (e.transcript ≠ "") && e.is_final && decide (e.words ≠ [])

/-- The `TranscriptSegment` pushed for an accumulating event: its text, the
first word's start, the last word's end and the word list. -/
def eventSegment (e : TranscriptEvent) : TranscriptSegment :=
  { text := e.transcript,
    startTime := ((e.words.head?).map TranscriptWord.start).getD 0,
    endTime := ((e.words.getLast?).map TranscriptWord.«end»).getD 0,
    words := e.words }

/-- A concrete recognition event list used to instantiate theorems. -/
def sampleEvents : List TranscriptEvent :=
  [⟨"hi there", true, [⟨"hi", 0, 2/5, 1⟩, ⟨"there", 1/2, 1, 1⟩]⟩]

/-- Another concrete recognition event list used to instantiate theorems. -/
def sampleEvents2 : List TranscriptEvent :=
  [⟨"ok go", true, [⟨"ok", 1/10, 3/10, 1⟩, ⟨"go", 2/5, 3/5, 1⟩]⟩]

/-! Section: Helper lemmas -/

/-- One `handleTranscript` step: the segment and word lists grow by exactly
the accumulating event's contribution, and each timestamp is set whenever it
was already set or the event accumulates. -/
theorem handleTranscript_state_spec (s : SessionState) (e : TranscriptEvent) :
    (handleTranscript s e).1.segments
        = s.segments ++ (if accumulates e = true then [eventSegment e] else [])
    ∧ (handleTranscript s e).1.allWords
        = s.allWords ++ (if accumulates e = true then e.words else [])
    ∧ (handleTranscript s e).1.startTime.isSome
        = (s.startTime.isSome || accumulates e)
    ∧ (handleTranscript s e).1.endTime.isSome
        = (s.endTime.isSome || accumulates e) := by
  unfold handleTranscript accumulates
  by_cases ht : e.transcript = ""
  · simp [ht]
  · rcases hf : e.is_final
    · rcases hw : e.words with _ | ⟨w0, rest⟩ <;> simp [ht, hf, hw]
    · rcases hw : e.words with _ | ⟨w0, rest⟩
      · simp [ht, hf, hw]
      · have hlast : (w0 :: rest).getLast? =
            some ((w0 :: rest).getLast (List.cons_ne_nil w0 rest)) :=
          List.getLast?_eq_getLast _ _
        cases hst : s.startTime <;>
          simp [ht, hf, hw, eventSegment, hlast, hst]

/-- Folding a list of recognition events: the session accumulates exactly
the contributions of the accumulating events, in arrival order, and each
timestamp ends up set whenever it started set or some event accumulated. -/
theorem runEvents_accumulation (events : List TranscriptEvent) :
    ∀ s : SessionState,
      (runEvents s events).segments
          = s.segments ++ (events.filter accumulates).map eventSegment
      ∧ (runEvents s events).allWords
          = s.allWords ++ ((events.filter accumulates).map TranscriptEvent.words).flatten
      ∧ (runEvents s events).startTime.isSome
          = (s.startTime.isSome || events.any accumulates)
      ∧ (runEvents s events).endTime.isSome
          = (s.endTime.isSome || events.any accumulates) := by
  induction events with
  | nil => intro s; simp [runEvents]
  | cons e es ih =>
    intro s
    obtain ⟨h1, h2, h3, h4⟩ := handleTranscript_state_spec s e
    obtain ⟨i1, i2, i3, i4⟩ := ih (handleTranscript s e).1
    have hr : runEvents s (e :: es) = runEvents (handleTranscript s e).1 es := rfl
    rw [hr]
    by_cases ha : accumulates e = true <;>
      refine ⟨?_, ?_, ?_, ?_⟩ <;>
        simp [i1, i2, i3, i4, h1, h2, h3, h4, ha, List.filter_cons, List.any_cons,
          Bool.or_assoc]

/-- Membership in the pace timeline is existence of a producing window. -/
theorem mem_paceTimeline_iff (st et : ℚ) (ws : List TranscriptWord)
    (p : PaceTimelinePoint) :
    p ∈ calculatePaceTimeline st et ws ↔
      ∃ k, k < numWindows st et ∧ windowEntry st ws k = some p := by
  unfold calculatePaceTimeline
  simp [List.mem_filterMap, List.mem_range]

/-- A window with no qualifying word pushes nothing. -/
theorem windowEntry_nil {st : ℚ} {ws : List TranscriptWord} {k : ℕ}
    (h : windowWords st ws k = []) : windowEntry st ws k = none := by
  simp [windowEntry, h]

/-- A window with at least one qualifying word pushes exactly one entry,
carrying the window's start, its fixed 30-second end, and the rounded
words-per-minute of the selected words. -/
theorem windowEntry_of_ne_nil {st : ℚ} {ws : List TranscriptWord} {k : ℕ}
    (h : windowWords st ws k ≠ []) :
    windowEntry st ws k = some
      { timestamp := st + PACE_SEGMENT_INTERVAL * k,
        wpm := jsRound (paceWpmValue (windowWords st ws k)),
        segmentStart := st + PACE_SEGMENT_INTERVAL * k,
        segmentEnd := st + PACE_SEGMENT_INTERVAL * k + PACE_SEGMENT_INTERVAL } := by
  rcases hww : windowWords st ws k with _ | ⟨w0, rest⟩
  · exact absurd hww h
  · simp [windowEntry, hww]

/-- Two windows with the same start coincide. -/
theorem window_start_inj {st : ℚ} {k j : ℕ}
    (h : st + PACE_SEGMENT_INTERVAL * (k : ℚ) = st + PACE_SEGMENT_INTERVAL * (j : ℚ)) :
    k = j := by
  have h30 : (PACE_SEGMENT_INTERVAL : ℚ) ≠ 0 := by norm_num [PACE_SEGMENT_INTERVAL]
  have := mul_left_cancel₀ h30 (by linarith : PACE_SEGMENT_INTERVAL * (k : ℚ)
    = PACE_SEGMENT_INTERVAL * (j : ℚ))
  exact_mod_cast this

/-- Splitting always yields at least one part (like JS `split`). -/
theorem splitOnSpace_ne_nil (l : List Char) : splitOnSpace l ≠ [] := by
  cases l with
  | nil => simp [splitOnSpace]
  | cons c rest =>
    unfold splitOnSpace
    cases h : splitOnSpace rest with
    | nil => simp
    | cons p ps =>
      by_cases hc : c = ' ' <;> simp [hc]

/-- One unfolding step of `splitOnSpace` when the tail split is known. -/
theorem splitOnSpace_cons (c : Char) (rest p : List Char) (ps : List (List Char))
    (h : splitOnSpace rest = p :: ps) :
    splitOnSpace (c :: rest) = if c = ' ' then [] :: p :: ps else (c :: p) :: ps := by
  unfold splitOnSpace
  rw [h]

/-- Joining the parts of a split restores the original character list. -/
theorem joinWithSpace_splitOnSpace (l : List Char) :
    joinWithSpace (splitOnSpace l) = l := by
  induction l with
  | nil => rfl
  | cons c rest ih =>
    cases h : splitOnSpace rest with
    | nil => exact absurd h (splitOnSpace_ne_nil rest)
    | cons p ps =>
      rw [h] at ih
      rw [splitOnSpace_cons c rest p ps h]
      by_cases hc : c = ' '
      · subst hc
        rw [if_pos rfl]
        simp only [joinWithSpace, List.nil_append]
        exact congrArg (' ' :: ·) ih
      · rw [if_neg hc]
        cases ps with
        | nil =>
          simp only [joinWithSpace] at ih ⊢
          rw [ih]
        | cons q qs =>
          simp only [joinWithSpace] at ih ⊢
          rw [List.cons_append, ih]

/-- A nonempty `slice` chunk of the parts list is a contiguous infix of it. -/
theorem take_drop_chunk_within (parts : List (List Char)) (i k : ℕ) :
    ((parts.drop i).take k) <:+: parts := by
  refine ⟨parts.take i, (parts.drop i).drop k, ?_⟩
  rw [List.append_assoc, List.take_append_drop, List.take_append_drop]

/-- `isFillerWord` holds exactly when some nonempty contiguous chunk of the
normalized token's space-separated parts, re-joined with spaces, belongs to
the (lower-cased) disfluency set. -/
theorem isFillerWord_chunk_spec (t : String) :
    isFillerWord t = true ↔
      ∃ mid : List (List Char), mid ≠ [] ∧
        mid <:+: splitOnSpace (normalizeToken t).data ∧
        FILLER_SET.contains (String.mk (joinWithSpace mid)) = true := by
  unfold isFillerWord
  by_cases hc : FILLER_SET.contains (normalizeToken t) = true
  · simp only [hc, if_true, true_iff]
    refine ⟨splitOnSpace (normalizeToken t).data,
      splitOnSpace_ne_nil _, List.infix_refl _, ?_⟩
    rw [joinWithSpace_splitOnSpace]
    exact hc
  · simp only [hc, if_false, Bool.if_false_left, Bool.and_eq_true, Bool.not_eq_true]
    rw [if_neg (by simp [hc])]
    constructor
    · intro h
      obtain ⟨i, hi, h2⟩ := List.any_eq_true.mp h
      obtain ⟨d, _, h3⟩ := List.any_eq_true.mp h2
      rw [List.mem_range] at hi
      refine ⟨(((splitOnSpace (normalizeToken t).data).drop i).take (d + 1)), ?_,
        take_drop_chunk_within _ i (d + 1), h3⟩
      have hlen : (((splitOnSpace (normalizeToken t).data).drop i).take (d + 1)).length
          = min (d + 1) ((splitOnSpace (normalizeToken t).data).length - i) := by
        rw [List.length_take, List.length_drop]
      intro hnil
      rw [hnil] at hlen
      simp only [List.length_nil] at hlen
      omega
    · rintro ⟨mid, hne, ⟨s, tl, hst⟩, hcont⟩
      apply List.any_eq_true.mpr
      have hlen : (splitOnSpace (normalizeToken t).data).length
          = s.length + mid.length + tl.length := by
        rw [← hst]; simp only [List.length_append]
      have hmidpos : 0 < mid.length := List.length_pos.mpr hne
      refine ⟨s.length, List.mem_range.mpr (by omega), ?_⟩
      apply List.any_eq_true.mpr
      refine ⟨mid.length - 1, List.mem_range.mpr (by omega), ?_⟩
      have hdrop : (splitOnSpace (normalizeToken t).data).drop s.length = mid ++ tl := by
        rw [← hst, List.append_assoc, List.drop_left]
      have htake : ((splitOnSpace (normalizeToken t).data).drop s.length).take
          (mid.length - 1 + 1) = mid := by
        rw [hdrop]
        have : mid.length - 1 + 1 = mid.length := by omega
        rw [this, List.take_left]
      rw [htake]
      exact hcont

/-- The words reported by `detectFillers` are exactly the accumulated words
whose own text passes `isFillerWord`, in order. -/
theorem detectFillers_map_word (allWords : List TranscriptWord) :
    (detectFillers allWords).map FillerWithContext.word
      = (allWords.filter fun w => isFillerWord w.word).map TranscriptWord.word := by
  unfold detectFillers
  suffices h : ∀ (l : List TranscriptWord) (n : ℕ),
      ((List.enumFrom n l).filterMap fun iw =>
          if isFillerWord iw.2.word then some (mkFillerEvent allWords iw.1 iw.2)
          else none).map FillerWithContext.word
        = (l.filter fun w => isFillerWord w.word).map TranscriptWord.word by
    exact h allWords 0
  intro l
  induction l with
  | nil => intro n; rfl
  | cons w rest ih =>
    intro n
    by_cases hw : isFillerWord w.word = true
    · simp only [List.enumFrom, List.filterMap_cons, hw, if_true, List.map_cons,
        List.filter_cons, ih n.succ]
      rfl
    · simp only [List.enumFrom, List.filterMap_cons, hw, if_false, List.filter_cons,
        Bool.false_eq_true, ih n.succ]

/-- After `cleanup` the session is closed and both connections are nulled,
whatever the starting state. -/
theorem cleanup_state_eq (s : SessionState) :
    (cleanup s).1 =
      { s with sessionActive := false, dgConnection := false, room := false } := by
  rcases s with ⟨sa, rm, dg, aw, sg, st, et⟩
  cases rm <;> cases dg <;> rfl

/-! Section: Claims -/

/-- C9: filler-word normalization is case-insensitive and collapses repeated
letters: "Um", "UM" and "ummmm" all normalize to "um", and all three are
classified as filler words. -/
theorem normalizeToken_case_and_repeat_insensitive :
    normalizeToken "Um" = "um" ∧ normalizeToken "UM" = "um" ∧
    normalizeToken "ummmm" = "um" ∧
    isFillerWord "Um" = true ∧ isFillerWord "UM" = true ∧
    isFillerWord "ummmm" = true := by
  decide

/-- C7: session teardown is idempotent: a second `cleanup` performs no
resource-release side effects and leaves the state exactly as the first
left it, and after the first call the session is closed with both the
recognition connection and the room subscription released. -/
theorem cleanup_idempotent (s : SessionState) :
    cleanup (cleanup s).1 = ((cleanup s).1, []) ∧
    (cleanup s).1.sessionActive = false ∧
    (cleanup s).1.dgConnection = false ∧
    (cleanup s).1.room = false := by
  rcases s with ⟨sa, rm, dg, aw, sg, st, et⟩
  cases rm <;> cases dg <;> exact ⟨rfl, rfl, rfl, rfl⟩

/-- C8: a `start` message whose declared room or participant differs from the
JWT claims closes the connection with an authorization error and creates no
session; a session is created only when both declared values equal the
claims exactly. -/
theorem startMessage_authorization (ws : WsClaims) (m : StartMessage) :
    ((m.roomName ≠ ws.roomName ∨ m.participantIdentity ≠ ws.participantIdentity) →
      (handleStartMessage ws m).closed = true ∧
      (handleStartMessage ws m).sessionCreated = false ∧
      (handleStartMessage ws m).errorSent.isSome = true)
    ∧ ((handleStartMessage ws m).sessionCreated = true →
      m.roomName = ws.roomName ∧ m.participantIdentity = ws.participantIdentity) := by
  unfold handleStartMessage
  by_cases h1 : m.roomName = ws.roomName <;>
    by_cases h2 : m.participantIdentity = ws.participantIdentity <;>
      by_cases h3 : m.roomName = "" ∨ m.participantIdentity = "" <;>
        simp [h1, h2, h3]

/-- Witness for C8 at a concrete mismatching message. -/
theorem startMessage_authorization_witness :
    (handleStartMessage ⟨"room-a", "alice"⟩ ⟨"room-b", "alice"⟩).closed = true ∧
    (handleStartMessage ⟨"room-a", "alice"⟩ ⟨"room-b", "alice"⟩).sessionCreated = false := by
  have h := (startMessage_authorization ⟨"room-a", "alice"⟩ ⟨"room-b", "alice"⟩).1
    (Or.inl (by decide))
  exact ⟨h.1, h.2.1⟩

/-- C1 counterexample: on a live session with zero accumulated words,
processing the `complete` control message does send exactly one error
message, but it does NOT leave the session in its prior state: the handler
tears the session down (deactivated, Deepgram closed, room disconnected). -/
theorem completeOnEmpty_counterexample :
    (handleCompleteAction startedSession (some "iv")).2.1
        = [ServerMessage.errorMsg "No session data to complete"]
    ∧ startedSession.room = true ∧ startedSession.dgConnection = true
    ∧ (handleCompleteAction startedSession (some "iv")).1.sessionActive = false
    ∧ (handleCompleteAction startedSession (some "iv")).1.room = false
    ∧ (handleCompleteAction startedSession (some "iv")).1.dgConnection = false
    ∧ (handleCompleteAction startedSession (some "iv")).2.2
        = [CleanupEffect.closeDeepgram, CleanupEffect.disconnectRoom] := by
  decide

/-- C1 (amended): on a session with zero accumulated words,
`completeSession` itself sends exactly one error message and leaves the
session state unchanged; but the websocket handler then unconditionally
invokes `cleanup`, so processing the `complete` control message ends with
the session torn down (not in its prior state). -/
theorem completeSession_empty_behavior (s : SessionState) (b : Option String)
    (h : s.allWords = []) :
    completeSession s b = (s, [ServerMessage.errorMsg "No session data to complete"])
    ∧ (handleCompleteAction s b).2.1 = [ServerMessage.errorMsg "No session data to complete"]
    ∧ (handleCompleteAction s b).1 =
        { s with sessionActive := false, dgConnection := false, room := false } := by
  have hc : completeSession s b = (s, [ServerMessage.errorMsg "No session data to complete"]) := by
    unfold completeSession
    simp [h]
  refine ⟨hc, ?_, ?_⟩
  · unfold handleCompleteAction
    rw [hc]
  · unfold handleCompleteAction
    rw [hc]
    exact cleanup_state_eq s

/-- Witness for C1's amended theorem at a concrete empty session. -/
theorem completeSession_empty_behavior_witness :
    completeSession startedSession none
      = (startedSession, [ServerMessage.errorMsg "No session data to complete"]) :=
  (completeSession_empty_behavior startedSession none rfl).1

/-- C3 counterexample: the disfluency phrase "you know" arriving as the two
separate Words "you" and "know" produces NO `FillerEvent`, even though the
joined phrase is in the disfluency set: `detectFillers` tests each Word's
text on its own and never joins consecutive Words. -/
theorem detectFillers_crossWord_counterexample :
    detectFillers [⟨"you", 0, 1/5, 1⟩, ⟨"know", 3/10, 1/2, 1⟩] = []
    ∧ isFillerWord "you know" = true
    ∧ isFillerWord "you" = false ∧ isFillerWord "know" = false := by
  decide

/-- C3 (amended): filler detection tests each accumulated Word's text
independently: a `FillerEvent` is emitted exactly for those Words whose own
(multi-word) text satisfies `isFillerWord`, and `isFillerWord` holds iff
some contiguous chunk of that single text's normalized space-separated
parts is in the disfluency set. Phrases spanning several consecutive Word
entries are never joined. -/
theorem detectFillers_per_word_semantics (ws : List TranscriptWord) :
    ((detectFillers ws).map FillerWithContext.word
      = (ws.filter fun w => isFillerWord w.word).map TranscriptWord.word)
    ∧ ∀ t : String, isFillerWord t = true ↔
        ∃ mid : List (List Char), mid ≠ [] ∧
          mid <:+: splitOnSpace (normalizeToken t).data ∧
          FILLER_SET.contains (String.mk (joinWithSpace mid)) = true :=
  ⟨detectFillers_map_word ws, fun t => isFillerWord_chunk_spec t⟩

/-- Witness for C3's amended theorem: instantiated at the single token
"sorta", whose chunk decomposition is produced by the theorem itself. -/
theorem detectFillers_per_word_semantics_witness :
    ∃ mid : List (List Char), mid ≠ [] ∧
      mid <:+: splitOnSpace (normalizeToken "sorta").data ∧
      FILLER_SET.contains (String.mk (joinWithSpace mid)) = true :=
  ((detectFillers_per_word_semantics []).2 "sorta").mp (by decide)

/-- C5 counterexample: a pair with gap `1.301 s` (strictly above the
threshold) emits exactly one `PauseEvent`, but its duration is the rounded
`1.30`, not the gap itself, because the source applies `toFixed(2)`. -/
theorem detectPauses_counterexample :
    detectPauses [⟨"a", 0, 1/5, 1⟩, ⟨"b", 1501/1000, 8/5, 1⟩]
        = [{ duration := 13/10, timestamp := 1/5 }]
    ∧ ((13 : ℚ)/10) ≠ ((1501 : ℚ)/1000 - 1/5) := by
  refine ⟨?_, by norm_num⟩
  have hgap : PAUSE_THRESHOLD < (1501 : ℚ)/1000 - 1/5 := by
    norm_num [PAUSE_THRESHOLD]
  simp only [detectPauses, hgap, if_true, List.append_nil, List.cons.injEq, and_true,
    Pause.mk.injEq]
  constructor
  · norm_num [round2]
  · norm_num [round2]

/-- C5 (amended): walking consecutive word pairs in order, a `PauseEvent` is
emitted for the pair `(words[i-1], words[i])` iff the gap
`words[i].start - words[i-1].end` is strictly greater than the 1.2 s
threshold (a gap exactly equal to the threshold emits nothing); the emitted
event carries the gap rounded to two decimals as its duration and
`words[i-1].end` rounded to two decimals as its timestamp. -/
theorem detectPauses_pairwise (ws : List TranscriptWord) :
    detectPauses ws = (ws.zip ws.tail).filterMap fun p =>
      if PAUSE_THRESHOLD < p.2.start - p.1.«end» then
        some { duration := round2 (p.2.start - p.1.«end»),
               timestamp := round2 p.1.«end» }
      else none := by
  induction ws with
  | nil => rfl
  | cons a rest ih =>
    cases rest with
    | nil => rfl
    | cons b rest2 =>
      by_cases hgap : PAUSE_THRESHOLD < b.start - a.«end» <;>
        simp [detectPauses, hgap, ih]

/-- C4: for every delivered event sequence, exactly the events with the
final flag, at least one word and nonempty text append to the accumulated
Word and Segment lists (interim events append nothing); the appended
segments appear in arrival order with no duplication, and the summary
transcript is the space-joined concatenation of exactly those final
segments' texts in arrival order. -/
theorem finalEvents_accumulation (events : List TranscriptEvent) :
    (runEvents startedSession events).segments
        = (events.filter accumulates).map eventSegment
    ∧ (runEvents startedSession events).allWords
        = ((events.filter accumulates).map TranscriptEvent.words).flatten
    ∧ ∀ sum : SessionSummary,
        generateSummary (runEvents startedSession events) = some sum →
          sum.transcript = String.intercalate " "
            ((events.filter accumulates).map TranscriptEvent.transcript) := by
  obtain ⟨h1, h2, h3, h4⟩ := runEvents_accumulation events startedSession
  refine ⟨by simpa [startedSession] using h1, by simpa [startedSession] using h2, ?_⟩
  intro sum hsum
  unfold generateSummary at hsum
  rcases hst : (runEvents startedSession events).startTime with _ | st
  · rw [hst] at hsum; exact absurd hsum (by simp)
  rcases het : (runEvents startedSession events).endTime with _ | et
  · rw [hst, het] at hsum; exact absurd hsum (by simp)
  rw [hst, het] at hsum
  simp only [Option.some.injEq] at hsum
  rw [← hsum]
  show String.intercalate " "
      ((runEvents startedSession events).segments.map TranscriptSegment.text) = _
  rw [h1]
  simp [startedSession, List.map_map, Function.comp_def, eventSegment]

/-- Witness for C4 at a concrete one-event run, with the summary obtained
from the theorem itself. -/
theorem finalEvents_accumulation_witness :
    (generateSummary (runEvents startedSession sampleEvents)).map SessionSummary.transcript
      = some (String.intercalate " "
          ((sampleEvents.filter accumulates).map TranscriptEvent.transcript)) := by
  have hs : (generateSummary (runEvents startedSession sampleEvents)).isSome = true := by
    decide
  obtain ⟨sum, hsum⟩ := Option.isSome_iff_exists.mp hs
  rw [hsum]
  exact congrArg some ((finalEvents_accumulation sampleEvents).2.2 sum hsum)

/-- C10: whenever the accumulated word list is nonempty, both session
timestamps are set, so under `completeSession`'s nonempty guard the non-null
assertions in `generateSummary` cannot fail and the summary is produced. -/
theorem accumulated_times_nonNull (events : List TranscriptEvent)
    (h : (runEvents startedSession events).allWords ≠ []) :
    (runEvents startedSession events).startTime.isSome = true
    ∧ (runEvents startedSession events).endTime.isSome = true
    ∧ (generateSummary (runEvents startedSession events)).isSome = true := by
  obtain ⟨h1, h2, h3, h4⟩ := runEvents_accumulation events startedSession
  have hany : events.any accumulates = true := by
    by_contra hna
    have hfil : events.filter accumulates = [] := by
      rw [List.filter_eq_nil_iff]
      intro a ha hacc
      exact hna (List.any_eq_true.mpr ⟨a, ha, hacc⟩)
    rw [h2, hfil] at h
    simp [startedSession] at h
  have hstart : (runEvents startedSession events).startTime.isSome = true := by
    rw [h3, hany]; simp
  have hend : (runEvents startedSession events).endTime.isSome = true := by
    rw [h4, hany]; simp
  refine ⟨hstart, hend, ?_⟩
  obtain ⟨st, hst⟩ := Option.isSome_iff_exists.mp hstart
  obtain ⟨et, het⟩ := Option.isSome_iff_exists.mp hend
  unfold generateSummary
  rw [hst, het]
  rfl

/-- Witness for C10 at a concrete one-event run. -/
theorem accumulated_times_nonNull_witness :
    (generateSummary (runEvents startedSession sampleEvents2)).isSome = true :=
  (accumulated_times_nonNull sampleEvents2 (by decide)).2.2

/-- C2 counterexample: two words spanning only one second inside the single
30-second window give a words-per-minute of 120 (computed over the words'
own span), not `60 × 2 / 30 = 4` as the fixed-window-width formula claims. -/
theorem paceTimeline_windowSpan_counterexample :
    calculatePaceTimeline 0 1 [⟨"hello", 0, 1/5, 9/10⟩, ⟨"world", 4/5, 1, 9/10⟩]
        = [{ timestamp := 0, wpm := 120, segmentStart := 0, segmentEnd := 30 }]
    ∧ (120 : ℤ) ≠ 60 * 2 / 30 := by
  refine ⟨?_, by decide⟩
  have hn : numWindows 0 1 = 1 := by
    unfold numWindows
    rw [show ⌈((1:ℚ) - 0) / PACE_SEGMENT_INTERVAL⌉ = 1 by
      rw [Int.ceil_eq_iff]; norm_num [PACE_SEGMENT_INTERVAL]]
    rfl
  have hww : windowWords 0 [⟨"hello", 0, 1/5, 9/10⟩, ⟨"world", 4/5, 1, 9/10⟩] 0
      = [⟨"hello", 0, 1/5, 9/10⟩, ⟨"world", 4/5, 1, 9/10⟩] := by
    simp only [windowWords, List.filter_cons, List.filter_nil]
    norm_num [PACE_SEGMENT_INTERVAL]
  have hne : windowWords 0 [⟨"hello", 0, 1/5, 9/10⟩, ⟨"world", 4/5, 1, 9/10⟩] 0 ≠ [] := by
    rw [hww]; exact List.cons_ne_nil _ _
  have hwpm : paceWpmValue [⟨"hello", 0, 1/5, 9/10⟩, ⟨"world", 4/5, 1, 9/10⟩]
      = 120 := by
    simp only [paceWpmValue, List.getLast]
    norm_num
  have hjr : jsRound (120 : ℚ) = 120 := by
    unfold jsRound
    rw [Int.floor_eq_iff]; norm_num
  show (List.range (numWindows 0 1)).filterMap
      (windowEntry 0 [⟨"hello", 0, 1/5, 9/10⟩, ⟨"world", 4/5, 1, 9/10⟩]) = _
  rw [hn, show List.range 1 = [0] from by decide, List.filterMap_cons,
    windowEntry_of_ne_nil hne, List.filterMap_nil, hww, hwpm, hjr]
  norm_num [PACE_SEGMENT_INTERVAL]

/-- C2 (amended): every pace-timeline entry comes from a 30-second window
holding at least one fully-contained word; its words-per-minute equals
`Math.round(count / (last.end − first.start) × 60)` computed over the
selected words (0 when that span is zero), not `60 × count / window-width`;
conversely every window with at least one qualifying word contributes its
entry, and windows with zero qualifying words contribute nothing. -/
theorem paceTimeline_entries (st et : ℚ) (ws : List TranscriptWord) :
    (∀ p ∈ calculatePaceTimeline st et ws, ∃ k, k < numWindows st et ∧
        windowWords st ws k ≠ [] ∧
        p.segmentStart = st + 30 * k ∧
        p.segmentEnd = p.segmentStart + 30 ∧
        p.wpm = jsRound (paceWpmValue (windowWords st ws k)))
    ∧ (∀ k, k < numWindows st et → windowWords st ws k ≠ [] →
        { timestamp := st + 30 * k,
          wpm := jsRound (paceWpmValue (windowWords st ws k)),
          segmentStart := st + 30 * k,
          segmentEnd := st + 30 * k + 30 : PaceTimelinePoint }
          ∈ calculatePaceTimeline st et ws) := by
  have hPI : PACE_SEGMENT_INTERVAL = (30 : ℚ) := rfl
  constructor
  · intro p hp
    obtain ⟨k, hk, he⟩ := (mem_paceTimeline_iff st et ws p).mp hp
    have hne : windowWords st ws k ≠ [] := by
      intro h0
      rw [windowEntry_nil h0] at he
      exact Option.noConfusion he
    rw [windowEntry_of_ne_nil hne] at he
    obtain rfl := Option.some.inj he
    exact ⟨k, hk, hne, by rw [hPI], by rw [hPI], rfl⟩
  · intro k hk hne
    apply (mem_paceTimeline_iff st et ws _).mpr
    refine ⟨k, hk, ?_⟩
    rw [windowEntry_of_ne_nil hne, hPI]

/-- Witness for C2's amended theorem: the single window of a one-word
session contributes its entry. -/
theorem paceTimeline_entries_witness :
    { timestamp := (0 : ℚ) + 30 * (0 : ℕ),
      wpm := jsRound (paceWpmValue (windowWords 0 [⟨"one", 1/2, 1, 1⟩] 0)),
      segmentStart := (0 : ℚ) + 30 * (0 : ℕ),
      segmentEnd := (0 : ℚ) + 30 * (0 : ℕ) + 30 : PaceTimelinePoint }
      ∈ calculatePaceTimeline 0 1 [⟨"one", 1/2, 1, 1⟩] := by
  have hk : 0 < numWindows 0 1 := by
    unfold numWindows
    rw [show ⌈((1:ℚ) - 0) / PACE_SEGMENT_INTERVAL⌉ = 1 by
      rw [Int.ceil_eq_iff]; norm_num [PACE_SEGMENT_INTERVAL]]
    decide
  have hne : windowWords 0 [⟨"one", 1/2, 1, 1⟩] 0 ≠ [] := by
    simp only [windowWords, List.filter_cons, List.filter_nil]
    norm_num [PACE_SEGMENT_INTERVAL]
  exact (paceTimeline_entries 0 1 [⟨"one", 1/2, 1, 1⟩]).2 0 hk hne

/-- C6 counterexample: a single window whose two selected words span 0.9 s
carries words-per-minute `round(2 / 0.9 × 60) = 133`, an integer, not the
exact value `2 / (0.9 − 0) × 60 = 400/3` the claim states. -/
theorem paceTimeline_rounding_counterexample :
    calculatePaceTimeline 0 (9/10) [⟨"a", 0, 1/5, 1⟩, ⟨"b", 3/10, 9/10, 1⟩]
        = [{ timestamp := 0, wpm := 133, segmentStart := 0, segmentEnd := 30 }]
    ∧ ((133 : ℚ) ≠ 2 / (9/10 - 0) * 60) := by
  refine ⟨?_, by norm_num⟩
  have hn : numWindows 0 (9/10) = 1 := by
    unfold numWindows
    rw [show ⌈((9:ℚ)/10 - 0) / PACE_SEGMENT_INTERVAL⌉ = 1 by
      rw [Int.ceil_eq_iff]; norm_num [PACE_SEGMENT_INTERVAL]]
    rfl
  have hww : windowWords 0 [⟨"a", 0, 1/5, 1⟩, ⟨"b", 3/10, 9/10, 1⟩] 0
      = [⟨"a", 0, 1/5, 1⟩, ⟨"b", 3/10, 9/10, 1⟩] := by
    simp only [windowWords, List.filter_cons, List.filter_nil]
    norm_num [PACE_SEGMENT_INTERVAL]
  have hne : windowWords 0 [⟨"a", 0, 1/5, 1⟩, ⟨"b", 3/10, 9/10, 1⟩] 0 ≠ [] := by
    rw [hww]; exact List.cons_ne_nil _ _
  have hwpm : paceWpmValue [⟨"a", 0, 1/5, 1⟩, ⟨"b", 3/10, 9/10, 1⟩] = 400/3 := by
    simp only [paceWpmValue, List.getLast]
    norm_num
  have hjr : jsRound ((400 : ℚ)/3) = 133 := by
    unfold jsRound
    rw [Int.floor_eq_iff]; norm_num
  show (List.range (numWindows 0 (9/10))).filterMap
      (windowEntry 0 [⟨"a", 0, 1/5, 1⟩, ⟨"b", 3/10, 9/10, 1⟩]) = _
  rw [hn, show List.range 1 = [0] from by decide, List.filterMap_cons,
    windowEntry_of_ne_nil hne, List.filterMap_nil, hww, hwpm, hjr]
  norm_num [PACE_SEGMENT_INTERVAL]

/-- C6 (amended): the pace timeline iterates consecutive fixed-width
30-second windows over the session span; window `k` selects exactly the
words whose `[start, end]` interval lies fully inside it; a window with no
selected word contributes no entry, and a window with at least one selected
word contributes exactly one entry, whose words-per-minute is
`Math.round(count / (last.end − first.start) × 60)` over the selected words
(0 when that span is zero). -/
theorem paceTimeline_window_characterization (st et : ℚ) (ws : List TranscriptWord)
    (k : ℕ) (hk : k < numWindows st et) :
    (windowWords st ws k
        = ws.filter fun w =>
            decide (st + 30 * k ≤ w.start) && decide (w.«end» ≤ st + 30 * k + 30))
    ∧ (windowWords st ws k = [] →
        ∀ p ∈ calculatePaceTimeline st et ws, p.segmentStart ≠ st + 30 * k)
    ∧ (windowWords st ws k ≠ [] →
        ({ timestamp := st + 30 * k,
           wpm := jsRound (paceWpmValue (windowWords st ws k)),
           segmentStart := st + 30 * k,
           segmentEnd := st + 30 * k + 30 : PaceTimelinePoint }
            ∈ calculatePaceTimeline st et ws
          ∧ ∀ p ∈ calculatePaceTimeline st et ws, p.segmentStart = st + 30 * k →
              p.wpm = jsRound (paceWpmValue (windowWords st ws k)))) := by
  have hPI : PACE_SEGMENT_INTERVAL = (30 : ℚ) := rfl
  refine ⟨rfl, ?_, ?_⟩
  · intro h0 p hp hps
    obtain ⟨k2, hk2, he2⟩ := (mem_paceTimeline_iff st et ws p).mp hp
    have hne2 : windowWords st ws k2 ≠ [] := by
      intro hnil
      rw [windowEntry_nil hnil] at he2
      exact Option.noConfusion he2
    rw [windowEntry_of_ne_nil hne2] at he2
    obtain rfl := Option.some.inj he2
    rw [← hPI] at hps
    obtain rfl := window_start_inj hps
    exact hne2 h0
  · intro hne
    constructor
    · apply (mem_paceTimeline_iff st et ws _).mpr
      refine ⟨k, hk, ?_⟩
      rw [windowEntry_of_ne_nil hne, hPI]
    · intro p hp hps
      obtain ⟨k2, hk2, he2⟩ := (mem_paceTimeline_iff st et ws p).mp hp
      have hne2 : windowWords st ws k2 ≠ [] := by
        intro hnil
        rw [windowEntry_nil hnil] at he2
        exact Option.noConfusion he2
      rw [windowEntry_of_ne_nil hne2] at he2
      obtain rfl := Option.some.inj he2
      rw [← hPI] at hps
      obtain rfl := window_start_inj hps
      rfl

/-- Witness for C6's amended theorem: its entry-contribution part at a
concrete one-word window. -/
theorem paceTimeline_window_characterization_witness :
    ({ timestamp := (0 : ℚ) + 30 * ((0 : ℕ) : ℚ),
       wpm := jsRound (paceWpmValue (windowWords 0 [⟨"w", 1/4, 3/4, 1⟩] 0)),
       segmentStart := (0 : ℚ) + 30 * ((0 : ℕ) : ℚ),
       segmentEnd := (0 : ℚ) + 30 * ((0 : ℕ) : ℚ) + 30 : PaceTimelinePoint }
        ∈ calculatePaceTimeline 0 1 [⟨"w", 1/4, 3/4, 1⟩]) := by
  have hk : 0 < numWindows 0 1 := by
    unfold numWindows
    rw [show ⌈((1:ℚ) - 0) / PACE_SEGMENT_INTERVAL⌉ = 1 by
      rw [Int.ceil_eq_iff]; norm_num [PACE_SEGMENT_INTERVAL]]
    decide
  have hne : windowWords 0 [⟨"w", 1/4, 3/4, 1⟩] 0 ≠ [] := by
    simp only [windowWords, List.filter_cons, List.filter_nil]
    norm_num [PACE_SEGMENT_INTERVAL]
  exact ((paceTimeline_window_characterization 0 1 [⟨"w", 1/4, 3/4, 1⟩] 0 hk).2.2 hne).1

end Transcription
